import Mathlib

/-!
Shallow embedding of `lib/publisher.js` from node-sdc-changefeed.

JavaScript objects used as string-keyed maps (`self.registrations`,
`self.websockets`) are modelled as insertion-ordered association lists,
with JS assignment semantics (update in place for an existing key,
append for a new key) and `for ... in` iteration in key insertion order.
-/

namespace Changefeed

/-- JS object property write: `m[k] = v`. Updates in place when the key
exists, otherwise appends (JS string-key insertion order). -/
def objSet {α : Type} (m : List (String × α)) (k : String) (v : α) : List (String × α) :=
  if m.any (fun p => p.1 == k) then
    m.map (fun p => if p.1 == k then (k, v) else p)
  else
    m ++ [(k, v)]

/-- JS object property read: `m[k]`, `none` standing for `undefined`. -/
def objGet {α : Type} (m : List (String × α)) (k : String) : Option α :=
  (m.find? (fun p => p.1 == k)).map Prod.snd

/-- JS `delete m[k]`. -/
def objDelete {α : Type} (m : List (String × α)) (k : String) : List (String × α) :=
  m.filter (fun p => !(p.1 == k))

/-- JS `Object.keys(m)` / `for ... in` iteration order. -/
def objKeys {α : Type} (m : List (String × α)) : List String :=
  m.map Prod.fst

/-- The `changeKind` of a change record value or of a registration:
`{ resource: string, subResources: [string] }`. -/
structure ChangeKind where
  resource : String
  subResources : List String
deriving DecidableEq, Repr

/-- A registration payload sent by a listener over the websocket:
`{ instance: string, changeKind: ... }` (field `instance` in the JS;
`instance` is a Lean keyword, hence `instanceId`). -/
structure Registration where
  instanceId : String
  changeKind : ChangeKind
deriving DecidableEq, Repr

/-- A configured resource descriptor from `options.resources`:
`{ resource: string, ... }`; the extra fields are opaque to the module. -/
structure Resource where
  resource : String
  extra : String
deriving DecidableEq, Repr

/-- The value of a change record stored in the moray bucket:
`{ changeKind, published, ... }`. `payload` stands for the arbitrary
producer fields; `serializable` models whether `JSON.stringify` succeeds
on this value (it throws on circular structures). -/
structure Value where
  changeKind : ChangeKind
  published : String
  payload : String
  serializable : Bool
deriving DecidableEq, Repr

/-- The wire form `JSON.stringify` would produce for a serializable value. -/
def encodeValue (v : Value) : String :=
  String.intercalate "|"
    ([v.changeKind.resource] ++ v.changeKind.subResources ++ [v.published, v.payload])

/-- Model of `JSON.stringify(value)` wrapped as in the `try/catch` of `_record`:
`none` when stringification throws. -/
def stringifyValue (v : Value) : Option String :=
  if v.serializable then some (encodeValue v) else none

/-- A moray record as seen by the `findObjects` stream: `{ key, value }`. -/
structure RecordObj where
  key : String
  value : Value
deriving DecidableEq, Repr

/-- The publisher's registry state: `self.registrations` (instance →
registration) and `self.websockets` (instance → websocket), a websocket
modelled by its `_id`, plus the static `self.resources`. -/
structure PubState where
  registrations : List (String × Registration)
  websockets : List (String × Nat)
  resources : List Resource
deriving DecidableEq, Repr

/-- The `for` loop over `self.resources` in the `_register` handler
(publisher.js:126-132): `response` is overwritten by every descriptor whose
`resource` equals the registration's, so the last match wins. -/
def findResponse (resources : List Resource) (regResource : String) : Option Resource :=
  (resources.filter (fun re => re.resource == regResource)).getLast?

/-- The websocket `once('text', _register)` handler (publisher.js:121-140).
`decoded` is the outcome of `JSON.parse(text)`: `none` models an
undecodable payload, on which `JSON.parse` throws out of the handler
(there is no try/catch) before anything is mutated — modelled as
`Except.error`. On a decodable payload the websocket and the registration
are stored in the two maps BEFORE the resource is validated; the returned
`Option Resource` is the bootstrap response sent back over the websocket
(`none`: nothing is sent, the rejection is only logged). -/
def _register (decoded : Option Registration) (wsId : Nat) (s : PubState) :
    Except Unit (PubState × Option Resource) :=
  match decoded with
  | none => Except.error ()
  | some registration =>
    let s1 : PubState :=
      { s with
        websockets := objSet s.websockets registration.instanceId wsId,
        registrations := objSet s.registrations registration.instanceId registration }
    Except.ok (s1, findResponse s1.resources registration.changeKind.resource)

/-- The `for (var instance in self.registrations)` sweep shared by the
`_end` and `_connectionReset` handlers (publisher.js:143-160): for each
instance key, read `self.websockets[instance]._id` — a `TypeError` escapes
(modelled as `Except.error`) when that websocket is `undefined` — and when
it equals the closing websocket's `_id`, delete the instance from both
maps. Deleting the current key during `for...in` is safe in JS, so the
sweep walks the key list captured at loop entry. -/
def collectInstances (wsId : Nat) :
    List String → List (String × Registration) → List (String × Nat) →
    Except Unit (List (String × Registration) × List (String × Nat))
  | [], regs, wss => Except.ok (regs, wss)
  | inst :: rest, regs, wss =>
    match objGet wss inst with
    | none => Except.error ()
    | some id =>
      if id == wsId then
        collectInstances wsId rest (objDelete regs inst) (objDelete wss inst)
      else
        collectInstances wsId rest regs wss

/-- The `websocket.on('end', _end)` handler (publisher.js:143-151). -/
def _end (wsId : Nat) (s : PubState) : Except Unit PubState :=
  (collectInstances wsId (objKeys s.registrations) s.registrations s.websockets).map
    (fun p => { s with registrations := p.1, websockets := p.2 })

/-- The `websocket.on('connectionReset', _connectionReset)` handler
(publisher.js:152-160); its body is textually identical to `_end`. -/
def _connectionReset (wsId : Nat) (s : PubState) : Except Unit PubState :=
  (collectInstances wsId (objKeys s.registrations) s.registrations s.websockets).map
    (fun p => { s with registrations := p.1, websockets := p.2 })

/-- Model of `value.published = Date.now().toString()` (publisher.js:197):
`Date.now()` is a natural number of milliseconds, stringified in
decimal. -/
def markValue (now : Nat) (v : Value) : Value :=
  { v with published := Nat.repr now }

/-- The double `for` loop of the `_record` handler (publisher.js:209-227).
Walks `self.registrations` in key insertion order; for an entry whose
`changeKind.resource` equals the value's, the inner loop scans the VALUE's
`subResources` in order and, at the first element contained in the
registration's `subResources`, calls `regWebsocket.send(strValue)`, emits
`item-published` and breaks (one send per entry at most). When a send
fires and `self.websockets[instance]` is `undefined`, `.send` throws
(`Except.error`). Returns the sends in order as (instance, payload);
`strValue` is `none` when serialization failed — the loop still runs and
sends it. -/
def recordSends (strValue : Option String) (value : Value) (wss : List (String × Nat)) :
    List (String × Registration) → Except Unit (List (String × Option String))
  | [] => Except.ok []
  | (inst, reg) :: rest =>
    if reg.changeKind.resource == value.changeKind.resource then
      if (value.changeKind.subResources.find?
            (fun sr => reg.changeKind.subResources.contains sr)).isSome then
        match objGet wss inst with
        | none => Except.error ()
        | some _ =>
          (recordSends strValue value wss rest).map (fun l => (inst, strValue) :: l)
      else recordSends strValue value wss rest
    else recordSends strValue value wss rest

/-- The guard of the double loop in `_record` for one registry entry:
the entry's `changeKind.resource` equals the value's and the inner scan of
the value's `subResources` finds an element contained in the entry's
`subResources`. -/
def deliverable (reg : Registration) (v : Value) : Bool :=
  (reg.changeKind.resource == v.changeKind.resource) &&
  (v.changeKind.subResources.find?
    (fun sr => reg.changeKind.subResources.contains sr)).isSome

/-- The observable effects of one `_record` handler invocation:
the sends over websockets in order, the number of `item-published`
emissions (the source emits once in the same guarded block as each send),
and the `putObject(bucketName, record.key, value, _mark)` write-back. -/
structure RecordEffects where
  sends : List (String × Option String)
  emitsItemPublished : Nat
  write : String × Value
deriving DecidableEq, Repr

/-- The `req.on('record', _record)` handler (publisher.js:194-234): mutate
`value.published` to the stringified current time, `JSON.stringify` the
mutated value under try/catch, run the match-and-deliver double loop, then
issue the `putObject` write-back at the record's original key. A throw
escaping the loop (send on an `undefined` websocket) aborts the handler
before the write. -/
def _record (now : Nat) (s : PubState) (record : RecordObj) : Except Unit RecordEffects :=
  let value := markValue now record.value
  let strValue := stringifyValue value
  match recordSends strValue value s.websockets s.registrations with
  | Except.error e => Except.error e
  | Except.ok sends =>
    Except.ok { sends := sends, emitsItemPublished := sends.length,
                write := (record.key, value) }

/-- The messages sent to one instance's websocket during a handler run. -/
def sendsTo (sends : List (String × Option String)) (inst : String) : List (Option String) :=
  (sends.filter (fun p => p.1 == inst)).map Prod.snd

/-- Errors surfaced by the moray client: `err.name === 'BucketNotFoundError'`
is the one `_setupBucket` distinguishes. -/
inductive MorayErr where
  | bucketNotFound : MorayErr
  | other : String → MorayErr
deriving DecidableEq, Repr

/-- The bucket config built in the constructor (publisher.js:62-69):
an index on the string-typed `published` field. -/
structure BucketConfig where
  index : List (String × String)
deriving DecidableEq, Repr

/-- The `self.morayBucket` object (publisher.js:62-69). -/
structure MorayBucket where
  name : String
  config : BucketConfig
deriving DecidableEq, Repr

def morayBucket (bucketName : String) : MorayBucket :=
  { name := bucketName, config := { index := [("published", "string")] } }

/-- Model of `_setupBucket(cb)` (publisher.js:288-301), given the outcome of
`getBucket` (`fetchRes`) and, where reached, of `createBucket`
(`createRes`). Returns the sequence of invocations of `cb`, in order, and
whether `createBucket` was invoked. On `BucketNotFoundError` the code
calls `self._createBucket(cb)` and then FALLS THROUGH to `return cb(err)`
(no early return), so `cb` first fires synchronously with the not-found
error and later with the create outcome. Any other error hits the early
`return cb(err)` and is forwarded unchanged. On fetch success `cb(null)`
fires once. -/
def _setupBucket (fetchRes : Option MorayErr) (createRes : Option MorayErr) :
    List (Option MorayErr) × Bool :=
  match fetchRes with
  | some e =>
    if e == MorayErr.bucketNotFound then ([some e, createRes], true)
    else ([some e], false)
  | none => ([none], false)

/-- The `_bucketSetupError` callback (publisher.js:96-103) for one `cb`
invocation: an error is only logged; success emits `moray-ready`.
Returns whether `moray-ready` is emitted. -/
def _bucketSetupError (err : Option MorayErr) : Bool :=
  err.isNone

/-- Number of `moray-ready` emissions over a sequence of `cb` invocations. -/
def morayReadyEmits (invocations : List (Option MorayErr)) : Nat :=
  (invocations.filter _bucketSetupError).length

/-- The run-state touched by `start()`/`stop()`: whether the
`setInterval` poll timer is set and whether the moray client is open. -/
structure RunState where
  pub : PubState
  pollIntervalSet : Bool
  morayClientOpen : Bool
deriving DecidableEq, Repr

/-- Model of `stop()` (publisher.js:171-175): `clearInterval(self.pollInterval)`
and `self.morayClient.close()`. Nothing else: no flag consulted by the
in-flight `findObjects` handlers is set. -/
def stop (st : RunState) : RunState :=
  { st with pollIntervalSet := false, morayClientOpen := false }

/-- An in-flight `record` callback running after `stop()` executes the
unchanged `_record` closure on the current registry — the source installs
no guard, so its behavior does not depend on `pollIntervalSet` or
`morayClientOpen`. -/
def runInflightRecord (now : Nat) (st : RunState) (record : RecordObj) :
    Except Unit RecordEffects :=
  _record now st.pub record

/-! Concrete instances used by witnesses and counterexamples, following
the spec's example scenario (a `vm` resource with `nics`/`metadata`
sub-resources). -/

def cRes : Resource := ⟨"vm", "descriptor-extra"⟩

def cReg1 : Registration := ⟨"i1", ⟨"vm", ["nics"]⟩⟩

def cS1 : PubState := ⟨[("i1", cReg1)], [("i1", 7)], [cRes]⟩

def cVal1 : Value := ⟨⟨"vm", ["nics", "tags"]⟩, "no", "producer-payload", true⟩

def cRec1 : RecordObj := ⟨"k1", cVal1⟩

def cVal4 : Value := ⟨⟨"vm", ["nics", "tags"]⟩, "no", "producer-payload", false⟩

def cRec4 : RecordObj := ⟨"k4", cVal4⟩

def cReg2 : Registration := ⟨"i2", ⟨"bogus", ["x"]⟩⟩

def cS2 : PubState := ⟨[], [], [cRes]⟩

def cVal6 : Value := ⟨⟨"volume", ["size"]⟩, "no", "producer-payload", true⟩

def cRec6 : RecordObj := ⟨"k6", cVal6⟩

def cRun7 : RunState := ⟨cS1, true, true⟩

def cPost9 : PubState := ⟨[("i1", cReg1)], [("i1", 3)], [cRes]⟩

/-! Helper lemmas. -/

lemma digitChar_isDigit {m : Nat} (hm : m < 10) : (Nat.digitChar m).isDigit = true := by
  interval_cases m <;> decide

lemma toDigitsCore_mem (f : Nat) :
    ∀ (n : Nat) (ds : List Char) (c : Char), c ∈ Nat.toDigitsCore 10 f n ds →
      c ∈ ds ∨ c.isDigit = true := by
  induction f with
  | zero => intro n ds c hc; exact Or.inl hc
  | succ f ih =>
    intro n ds c hc
    simp only [Nat.toDigitsCore] at hc
    by_cases h : n / 10 = 0
    · rw [if_pos h] at hc
      rcases List.mem_cons.mp hc with h1 | h1
      · exact Or.inr (h1 ▸ digitChar_isDigit (Nat.mod_lt _ (by decide)))
      · exact Or.inl h1
    · rw [if_neg h] at hc
      rcases ih (n / 10) (Nat.digitChar (n % 10) :: ds) c hc with h1 | h1
      · rcases List.mem_cons.mp h1 with h2 | h2
        · exact Or.inr (h2 ▸ digitChar_isDigit (Nat.mod_lt _ (by decide)))
        · exact Or.inl h2
      · exact Or.inr h1

/-- The string `Date.now().toString()` is a decimal digit string, never the sentinel
`"no"`. -/
lemma repr_ne_no (n : Nat) : Nat.repr n ≠ "no" := by
  intro h
  have hdata : (Nat.toDigits 10 n) = ['n', 'o'] := by
    have := congrArg String.data h
    simpa [Nat.repr, List.asString] using this
  have hmem : ('n' : Char) ∈ Nat.toDigits 10 n := by rw [hdata]; simp
  rcases toDigitsCore_mem (n + 1) n [] 'n' hmem with h1 | h1
  · exact absurd h1 (List.not_mem_nil _)
  · exact absurd h1 (by decide)

lemma markValue_published (now : Nat) (v : Value) :
    (markValue now v).published = Nat.repr now := rfl

lemma markValue_published_ne_no (now : Nat) (v : Value) :
    (markValue now v).published ≠ "no" := repr_ne_no now

lemma objGet_nil {α : Type} (k : String) : objGet ([] : List (String × α)) k = none := rfl

lemma objGet_cons {α : Type} (p : String × α) (rest : List (String × α)) (k : String) :
    objGet (p :: rest) k = if p.1 == k then some p.2 else objGet rest k := by
  unfold objGet
  rw [List.find?_cons]
  by_cases h : p.1 == k <;> simp [h]

lemma objGet_map_update_self {α : Type} (k : String) (v : α) :
    ∀ m : List (String × α), m.any (fun p => p.1 == k) = true →
      objGet (m.map (fun p => if p.1 == k then (k, v) else p)) k = some v := by
  intro m
  induction m with
  | nil => intro h; simp at h
  | cons p rest ih =>
    intro h
    by_cases hp : p.1 == k
    · have hpe : p.1 = k := by simpa using hp
      simp [List.map_cons, objGet_cons, hpe]
    · simp only [List.any_cons, hp, Bool.false_or] at h
      rw [List.map_cons, if_neg hp, objGet_cons, if_neg hp]
      exact ih h

lemma objGet_append_single {α : Type} (k : String) (v : α) :
    ∀ m : List (String × α), m.any (fun p => p.1 == k) = false →
      objGet (m ++ [(k, v)]) k = some v := by
  intro m
  induction m with
  | nil => intro _; simp [objGet_cons]
  | cons p rest ih =>
    intro h
    simp only [List.any_cons, Bool.or_eq_false_iff] at h
    rw [List.cons_append, objGet_cons, if_neg (by simp [h.1])]
    exact ih h.2

/-- Writing `m[k] = v` makes `m[k]` read back `v`. -/
lemma objGet_objSet_self {α : Type} (m : List (String × α)) (k : String) (v : α) :
    objGet (objSet m k v) k = some v := by
  unfold objSet
  by_cases h : m.any (fun p => p.1 == k)
  · rw [if_pos h]; exact objGet_map_update_self k v m h
  · rw [if_neg h]
    have h' : m.any (fun p => p.1 == k) = false := by
      cases hb : m.any (fun p => p.1 == k)
      · rfl
      · exact absurd hb h
    exact objGet_append_single k v m h'

lemma objKeys_map_update {α : Type} (m : List (String × α)) (k : String) (v : α) :
    objKeys (m.map (fun p => if p.1 == k then (k, v) else p)) = objKeys m := by
  unfold objKeys
  rw [List.map_map]
  apply List.map_congr_left
  intro p _
  by_cases hp : p.1 == k
  · simp [Function.comp, hp, (beq_iff_eq.mp hp).symm]
  · simp [Function.comp, hp]

lemma any_key_beq {α : Type} (m : List (String × α)) (k : String) :
    m.any (fun p => p.1 == k) = (objKeys m).any (fun x => x == k) := by
  unfold objKeys
  induction m with
  | nil => rfl
  | cons p rest ih => simp [List.any_cons, ih]

lemma objKeys_objSet {α : Type} (m : List (String × α)) (k : String) (v : α) :
    objKeys (objSet m k v) =
      if (objKeys m).any (fun x => x == k) then objKeys m else objKeys m ++ [k] := by
  unfold objSet
  rw [← any_key_beq]
  by_cases h : m.any (fun p => p.1 == k)
  · rw [if_pos h, if_pos h, objKeys_map_update]
  · rw [if_neg h, if_neg h]; simp [objKeys]

/-- Writing the same key into two maps with equal key sets keeps the key
sets equal. -/
lemma objKeys_objSet_congr {α β : Type} (m₁ : List (String × α)) (m₂ : List (String × β))
    (k : String) (v : α) (w : β) (h : objKeys m₁ = objKeys m₂) :
    objKeys (objSet m₁ k v) = objKeys (objSet m₂ k w) := by
  rw [objKeys_objSet, objKeys_objSet, h]

lemma objKeys_objDelete {α : Type} (m : List (String × α)) (k : String) :
    objKeys (objDelete m k) = (objKeys m).filter (fun x => !(x == k)) := by
  unfold objDelete objKeys
  induction m with
  | nil => rfl
  | cons p rest ih =>
    by_cases hp : p.1 == k <;> simp [List.filter_cons, hp, ih]

lemma objGet_isSome_of_mem_keys {α : Type} (m : List (String × α)) (k : String)
    (h : k ∈ objKeys m) : (objGet m k).isSome = true := by
  unfold objGet
  rw [Option.isSome_map']
  rw [List.find?_isSome]
  obtain ⟨p, hp, hk⟩ := List.mem_map.mp h
  exact ⟨p, hp, by simp [hk]⟩

lemma deliverable_markValue (reg : Registration) (now : Nat) (v : Value) :
    deliverable reg (markValue now v) = deliverable reg v := rfl

/-- When every deliverable entry has a websocket, the double loop of
`_record` completes and its sends are the deliverable entries in registry
order, each carrying `strValue`. -/
lemma recordSends_ok (strValue : Option String) (v : Value) (wss : List (String × Nat)) :
    ∀ regs : List (String × Registration),
      (∀ p ∈ regs, deliverable p.2 v = true → (objGet wss p.1).isSome = true) →
      recordSends strValue v wss regs =
        Except.ok (regs.filterMap
          (fun p => if deliverable p.2 v then some (p.1, strValue) else none)) := by
  intro regs
  induction regs with
  | nil => intro _; rfl
  | cons p rest ih =>
    intro h
    obtain ⟨inst, reg⟩ := p
    have hrest := ih (fun q hq => h q (List.mem_cons_of_mem _ hq))
    by_cases hres : reg.changeKind.resource == v.changeKind.resource
    · by_cases hfind : (v.changeKind.subResources.find?
          (fun sr => reg.changeKind.subResources.contains sr)).isSome
      · have hdel : deliverable reg v = true := by
          unfold deliverable; rw [hres, hfind]; rfl
        have hws := h (inst, reg) (List.mem_cons_self _ _) hdel
        cases hobj : objGet wss inst with
        | none => rw [hobj] at hws; simp at hws
        | some id =>
          simp only [recordSends, if_pos hres, if_pos hfind, hobj, hrest]
          simp [List.filterMap_cons, hdel, Except.map]
      · have hfind2 : (v.changeKind.subResources.find?
            (fun sr => reg.changeKind.subResources.contains sr)).isSome = false := by
          cases hI : (v.changeKind.subResources.find?
            (fun sr => reg.changeKind.subResources.contains sr)).isSome
          · rfl
          · exact absurd hI hfind
        have hdel : deliverable reg v = false := by
          unfold deliverable; rw [hfind2, Bool.and_false]
        simp only [recordSends, if_pos hres, if_neg hfind, hrest]
        simp [List.filterMap_cons, hdel]
    · have hres2 : (reg.changeKind.resource == v.changeKind.resource) = false := by
        cases hI : reg.changeKind.resource == v.changeKind.resource
        · rfl
        · exact absurd hI hres
      have hdel : deliverable reg v = false := by
        unfold deliverable; rw [hres2, Bool.false_and]
      simp only [recordSends, if_neg hres, hrest]
      simp [List.filterMap_cons, hdel]

/-- The whole of `_record`, under the same condition. -/
lemma record_ok (now : Nat) (s : PubState) (r : RecordObj)
    (hws : ∀ p ∈ s.registrations, deliverable p.2 r.value = true →
      (objGet s.websockets p.1).isSome = true) :
    _record now s r = Except.ok
      { sends := s.registrations.filterMap
          (fun p => if deliverable p.2 r.value then
            some (p.1, stringifyValue (markValue now r.value)) else none),
        emitsItemPublished := (s.registrations.filterMap
          (fun p => if deliverable p.2 r.value then
            some (p.1, stringifyValue (markValue now r.value)) else none)).length,
        write := (r.key, markValue now r.value) } := by
  unfold _record
  have h := recordSends_ok (stringifyValue (markValue now r.value)) (markValue now r.value)
    s.websockets s.registrations
    (fun p hp hd => hws p hp (by rwa [deliverable_markValue] at hd))
  simp only [deliverable_markValue] at h
  simp only [h]

/-- No send targets an instance outside the registry key set. -/
lemma sends_filter_not_mem (strValue : Option String) (v : Value) (inst : String) :
    ∀ regs : List (String × Registration), inst ∉ objKeys regs →
      ((regs.filterMap (fun p => if deliverable p.2 v then some (p.1, strValue) else none)).filter
        (fun p => p.1 == inst)) = [] := by
  intro regs
  induction regs with
  | nil => intro _; rfl
  | cons p rest ih =>
    intro h
    have hsplit : ¬inst = p.1 ∧ inst ∉ List.map Prod.fst rest := by
      simpa [objKeys, not_or] using h
    have h1 : (p.1 == inst) = false := by
      have hne : p.1 ≠ inst := fun he => hsplit.1 he.symm
      simp [hne]
    have h2 : inst ∉ objKeys rest := hsplit.2
    by_cases hdel : deliverable p.2 v
    · simp [List.filterMap_cons, hdel, List.filter_cons, h1, ih h2]
    · simp [List.filterMap_cons, hdel, ih h2]

/-- A deliverable registry entry receives exactly one send, carrying
`strValue`. -/
lemma sends_filter_mem (strValue : Option String) (v : Value) (inst : String)
    (reg : Registration) :
    ∀ regs : List (String × Registration), (objKeys regs).Nodup → (inst, reg) ∈ regs →
      deliverable reg v = true →
      ((regs.filterMap (fun p => if deliverable p.2 v then some (p.1, strValue) else none)).filter
        (fun p => p.1 == inst)) = [(inst, strValue)] := by
  intro regs
  induction regs with
  | nil => intro _ hmem; exact absurd hmem (List.not_mem_nil _)
  | cons p rest ih =>
    intro hnd hmem hdel
    rw [objKeys, List.map_cons, List.nodup_cons] at hnd
    rcases List.mem_cons.mp hmem with heq | hmem2
    · subst heq
      have hnin : inst ∉ objKeys rest := hnd.1
      simp [List.filterMap_cons, hdel, List.filter_cons,
        sends_filter_not_mem strValue v inst rest hnin]
    · have hinst : inst ∈ objKeys rest := List.mem_map.mpr ⟨(inst, reg), hmem2, rfl⟩
      have hne : (p.1 == inst) = false := by
        have : p.1 ≠ inst := fun he => hnd.1 (he ▸ hinst)
        simp [this]
      have hrest := ih hnd.2 hmem2 hdel
      by_cases hd : deliverable p.2 v
      · simp [List.filterMap_cons, hd, List.filter_cons, hne, hrest]
      · simp [List.filterMap_cons, hd, hrest]

/-- Every send of one `_record` run carries the one serialized payload. -/
lemma sends_payload (strValue : Option String) (v : Value) :
    ∀ regs : List (String × Registration),
      ∀ p ∈ regs.filterMap (fun q => if deliverable q.2 v then some (q.1, strValue) else none),
        p.2 = strValue := by
  intro regs
  induction regs with
  | nil => intro p hp; exact absurd hp (List.not_mem_nil _)
  | cons q rest ih =>
    intro p hp
    by_cases hd : deliverable q.2 v
    · rw [List.filterMap_cons] at hp
      simp only [hd, if_pos] at hp
      rcases List.mem_cons.mp hp with heq | hmem
      · rw [heq]
      · exact ih p hmem
    · rw [List.filterMap_cons] at hp
      simp only [hd] at hp
      exact ih p hp

/-- The `for...in` cleanup sweep of `_end` / `_connectionReset` keeps the
key sets of the two maps equal (it always deletes the same key from
both). -/
lemma collectInstances_keys (wsId : Nat) :
    ∀ (ks : List String) (regs : List (String × Registration)) (wss : List (String × Nat))
      (out : List (String × Registration) × List (String × Nat)),
      objKeys regs = objKeys wss →
      collectInstances wsId ks regs wss = Except.ok out →
      objKeys out.1 = objKeys out.2 := by
  intro ks
  induction ks with
  | nil =>
    intro regs wss out h hc
    simp only [collectInstances, Except.ok.injEq] at hc
    rw [← hc]
    exact h
  | cons inst rest ih =>
    intro regs wss out h hc
    simp only [collectInstances] at hc
    cases hobj : objGet wss inst with
    | none =>
      rw [hobj] at hc
      exact absurd (show (Except.error () :
        Except Unit (List (String × Registration) × List (String × Nat))) =
          Except.ok out from hc) (by simp)
    | some id =>
      rw [hobj] at hc
      have hc2 : (if id == wsId then
          collectInstances wsId rest (objDelete regs inst) (objDelete wss inst)
        else collectInstances wsId rest regs wss) = Except.ok out := hc
      by_cases hid : id == wsId
      · rw [if_pos hid] at hc2
        exact ih _ _ out (by rw [objKeys_objDelete, objKeys_objDelete, h]) hc2
      · rw [if_neg hid] at hc2
        exact ih _ _ out h hc2

/-- With no matching descriptor, the `_register` response stays `null`. -/
lemma findResponse_none (resources : List Resource) (regResource : String)
    (h : ∀ re ∈ resources, re.resource ≠ regResource) :
    findResponse resources regResource = none := by
  unfold findResponse
  rw [List.filter_eq_nil_iff.mpr (fun re hre => by simp [h re hre])]
  rfl

lemma deliverable_eq_true_iff (reg : Registration) (v : Value) :
    deliverable reg v = true ↔
      (reg.changeKind.resource = v.changeKind.resource ∧
        ∃ sr ∈ v.changeKind.subResources, sr ∈ reg.changeKind.subResources) := by
  simp only [deliverable, Bool.and_eq_true, beq_iff_eq, List.find?_isSome]
  constructor
  · rintro ⟨h1, x, hx, hc⟩
    exact ⟨h1, x, hx, by simpa using hc⟩
  · rintro ⟨h1, x, hx, hc⟩
    exact ⟨h1, x, hx, by simpa using hc⟩

lemma stringify_markValue_pos (now : Nat) (v : Value) (h : v.serializable = true) :
    stringifyValue (markValue now v) = some (encodeValue (markValue now v)) := by
  have hs : (markValue now v).serializable = true := h
  simp [stringifyValue, hs]

lemma stringify_markValue_neg (now : Nat) (v : Value) (h : v.serializable = false) :
    stringifyValue (markValue now v) = none := by
  have hs : (markValue now v).serializable = false := h
  simp [stringifyValue, hs]

/-- Shared skeleton for the delivery claims: a registry entry whose
resource matches the record's and whose sub-resources intersect the
record's receives exactly one send, carrying the (possibly failed)
serialization of the marked value; `item-published` fires once per send;
the mark-write targets the record's original key. -/
lemma record_matched_delivery (s : PubState) (r : RecordObj) (now : Nat)
    (inst : String) (reg : Registration)
    (hkeys : objKeys s.registrations = objKeys s.websockets)
    (hnodup : (objKeys s.registrations).Nodup)
    (hmem : (inst, reg) ∈ s.registrations)
    (hres : reg.changeKind.resource = r.value.changeKind.resource)
    (hint : ∃ sr ∈ r.value.changeKind.subResources, sr ∈ reg.changeKind.subResources) :
    (_record now s r).toOption.map (fun eff => sendsTo eff.sends inst)
      = some [stringifyValue (markValue now r.value)]
    ∧ (_record now s r).toOption.map
        (fun eff => eff.emitsItemPublished == eff.sends.length) = some true
    ∧ (_record now s r).toOption.map (fun eff => eff.write)
      = some (r.key, markValue now r.value) := by
  have hws : ∀ p ∈ s.registrations, deliverable p.2 r.value = true →
      (objGet s.websockets p.1).isSome = true := by
    intro p hp _
    apply objGet_isSome_of_mem_keys
    rw [← hkeys]
    exact List.mem_map.mpr ⟨p, hp, rfl⟩
  have hdel : deliverable reg r.value = true :=
    (deliverable_eq_true_iff reg r.value).mpr ⟨hres, hint⟩
  rw [record_ok now s r hws]
  simp only [Except.toOption, Option.map_some', Option.some.injEq]
  refine ⟨?_, beq_self_eq_true _, trivial⟩
  unfold sendsTo
  rw [sends_filter_mem (stringifyValue (markValue now r.value)) r.value inst reg
    s.registrations hnodup hmem hdel]
  rfl

/-! Claim theorems. -/

/-- C1: for a change record selected by a poll tick and a registry entry
whose `changeKind.resource` equals the record's and whose `subResources`
intersect the record's, the tick sends that entry's connection exactly one
serialized copy of the record's (marked) value, emits `item-published`
once per send, and writes the record back at its original key with
`published` no longer `"no"`. -/
theorem C1_matching_entry_delivery (s : PubState) (r : RecordObj) (now : Nat)
    (inst : String) (reg : Registration)
    (hsel : r.value.published = "no")
    (hser : r.value.serializable = true)
    (hkeys : objKeys s.registrations = objKeys s.websockets)
    (hnodup : (objKeys s.registrations).Nodup)
    (hmem : (inst, reg) ∈ s.registrations)
    (hres : reg.changeKind.resource = r.value.changeKind.resource)
    (hint : ∃ sr ∈ r.value.changeKind.subResources, sr ∈ reg.changeKind.subResources) :
    (_record now s r).toOption.map (fun eff => sendsTo eff.sends inst)
      = some [some (encodeValue (markValue now r.value))]
    ∧ (_record now s r).toOption.map
        (fun eff => eff.emitsItemPublished == eff.sends.length) = some true
    ∧ (_record now s r).toOption.map (fun eff => eff.write)
      = some (r.key, markValue now r.value)
    ∧ (markValue now r.value).published ≠ "no" := by
  have h := record_matched_delivery s r now inst reg hkeys hnodup hmem hres hint
  refine ⟨?_, h.2.1, h.2.2, markValue_published_ne_no now r.value⟩
  rw [← stringify_markValue_pos now r.value hser]
  exact h.1

theorem C1_matching_entry_delivery_witness :
    (_record 5 cS1 cRec1).toOption.map (fun eff => sendsTo eff.sends "i1")
      = some [some (encodeValue (markValue 5 cRec1.value))]
    ∧ (_record 5 cS1 cRec1).toOption.map
        (fun eff => eff.emitsItemPublished == eff.sends.length) = some true
    ∧ (_record 5 cS1 cRec1).toOption.map (fun eff => eff.write)
      = some (cRec1.key, markValue 5 cRec1.value)
    ∧ ((markValue 5 cRec1.value).published == "no") = false := by
  have h := C1_matching_entry_delivery cS1 cRec1 5 "i1" cReg1 rfl rfl rfl
    (by decide) (by decide) rfl ⟨"nics", by decide, by decide⟩
  exact ⟨h.1, h.2.1, h.2.2.1, beq_eq_false_iff_ne.mpr h.2.2.2⟩

/-- C2 counterexample: a registration whose resource matches no
configured descriptor is nevertheless stored in the registry (the maps
are written before validation), refuting "the registry gains no entry for
that registration's instanceId". -/
theorem C2_counterexample :
    cS2.resources.all (fun re => !(re.resource == cReg2.changeKind.resource)) = true
    ∧ (_register (some cReg2) 7 cS2).toOption.map
        (fun p => objGet p.1.registrations cReg2.instanceId) = some (some cReg2) :=
  ⟨rfl, rfl⟩

/-- C2 (amended): when a first handshake payload decodes to a
registration whose resource matches no configured descriptor, the
websocket and the registration ARE stored in the registry keyed by the
instanceId (the store happens before validation); nothing is sent back
over the connection (the response stays `null`, the rejection is only
logged) and no exception escapes, so the connection is left open. -/
theorem C2_nonmatching_registration_still_stored (s : PubState) (reg : Registration)
    (wsId : Nat) (hno : ∀ re ∈ s.resources, re.resource ≠ reg.changeKind.resource) :
    _register (some reg) wsId s =
      Except.ok ({ s with websockets := objSet s.websockets reg.instanceId wsId,
                          registrations := objSet s.registrations reg.instanceId reg }, none)
    ∧ objGet (objSet s.registrations reg.instanceId reg) reg.instanceId = some reg := by
  constructor
  · simp [_register, findResponse_none s.resources reg.changeKind.resource hno]
  · exact objGet_objSet_self s.registrations reg.instanceId reg

theorem C2_nonmatching_registration_still_stored_witness :
    _register (some cReg2) 7 cS2 =
      Except.ok ({ cS2 with websockets := objSet cS2.websockets cReg2.instanceId 7,
                            registrations := objSet cS2.registrations cReg2.instanceId cReg2 },
                 none)
    ∧ objGet (objSet cS2.registrations cReg2.instanceId cReg2) cReg2.instanceId
        = some cReg2 :=
  C2_nonmatching_registration_still_stored cS2 cReg2 7 (by decide)

/-- C3: fetching the collection with a "not found" outcome leads to
`createBucket` with the `published` string index, and on create success
the bootstrap callback reports success and `moray-ready` fires; any other
fetch error is forwarded unchanged to the callback and `moray-ready`
never fires. -/
theorem C3_store_bootstrap (bucketName : String) (e : MorayErr)
    (he : e ≠ MorayErr.bucketNotFound) (c : Option MorayErr) :
    ((_setupBucket (some MorayErr.bucketNotFound) none).2 = true
      ∧ (morayBucket bucketName).config.index = [("published", "string")]
      ∧ 0 < morayReadyEmits (_setupBucket (some MorayErr.bucketNotFound) none).1)
    ∧ ((_setupBucket (some e) c).1 = [some e]
      ∧ morayReadyEmits (_setupBucket (some e) c).1 = 0) := by
  constructor
  · exact ⟨rfl, rfl, by decide⟩
  · cases e with
    | bucketNotFound => exact absurd rfl he
    | other msg => exact ⟨rfl, rfl⟩

theorem C3_store_bootstrap_witness :
    (MorayErr.other "boom" ≠ MorayErr.bucketNotFound)
    ∧ (((_setupBucket (some MorayErr.bucketNotFound) none).2 = true
        ∧ (morayBucket "changefeed").config.index = [("published", "string")]
        ∧ 0 < morayReadyEmits (_setupBucket (some MorayErr.bucketNotFound) none).1)
      ∧ ((_setupBucket (some (MorayErr.other "boom")) none).1
            = [some (MorayErr.other "boom")]
        ∧ morayReadyEmits (_setupBucket (some (MorayErr.other "boom")) none).1 = 0)) :=
  ⟨by decide, C3_store_bootstrap "changefeed" (MorayErr.other "boom") (by decide) none⟩

/-- C4 counterexample: a record whose value fails to serialize, with one
matching registered listener — the matching loop still runs and the
connection is sent the `null` serialization result, refuting "no
connection is sent anything for that record on that tick". -/
theorem C4_counterexample :
    cRec4.value.serializable = false
    ∧ (_record 5 cS1 cRec4).toOption.map (fun eff => eff.sends)
        = some [("i1", (none : Option String))] :=
  ⟨rfl, rfl⟩

/-- C4 (amended): for a record whose value fails to serialize, the
failure is logged and `strValue` stays `null`, but delivery is NOT
skipped: the matching loop still runs and each matching registered
connection is sent the `null` payload; the record is still marked
published (its `published` field is written back as a timestamp
string). -/
theorem C4_unserializable_record_still_sent_and_marked (s : PubState) (r : RecordObj)
    (now : Nat) (inst : String) (reg : Registration)
    (hser : r.value.serializable = false)
    (hkeys : objKeys s.registrations = objKeys s.websockets)
    (hnodup : (objKeys s.registrations).Nodup)
    (hmem : (inst, reg) ∈ s.registrations)
    (hres : reg.changeKind.resource = r.value.changeKind.resource)
    (hint : ∃ sr ∈ r.value.changeKind.subResources, sr ∈ reg.changeKind.subResources) :
    (_record now s r).toOption.map (fun eff => sendsTo eff.sends inst) = some [none]
    ∧ (_record now s r).toOption.map (fun eff => eff.write)
      = some (r.key, markValue now r.value)
    ∧ (markValue now r.value).published = Nat.repr now
    ∧ Nat.repr now ≠ "no" := by
  have h := record_matched_delivery s r now inst reg hkeys hnodup hmem hres hint
  refine ⟨?_, h.2.2, rfl, repr_ne_no now⟩
  rw [← stringify_markValue_neg now r.value hser]
  exact h.1

theorem C4_unserializable_record_still_sent_and_marked_witness :
    (_record 5 cS1 cRec4).toOption.map (fun eff => sendsTo eff.sends "i1") = some [none]
    ∧ (_record 5 cS1 cRec4).toOption.map (fun eff => eff.write)
      = some (cRec4.key, markValue 5 cRec4.value)
    ∧ (markValue 5 cRec4.value).published = Nat.repr 5
    ∧ (Nat.repr 5 == "no") = false := by
  have h := C4_unserializable_record_still_sent_and_marked cS1 cRec4 5 "i1" cReg1 rfl
    rfl (by decide) (by decide) rfl ⟨"nics", by decide, by decide⟩
  exact ⟨h.1, h.2.1, h.2.2.1, beq_eq_false_iff_ne.mpr h.2.2.2⟩

/-- C5 counterexample: an undecodable first handshake payload makes the
`JSON.parse` exception escape the `_register` message handler, refuting
"no exception escapes the message handler" (and nothing is logged by the
handler on this path). -/
theorem C5_counterexample :
    _register none 7 cS2 = Except.error () := rfl

/-- C5 (amended): a malformed (undecodable) first handshake payload is
not caught: the decode exception propagates out of the message handler.
No registry entry is created and nothing is sent back (the throw precedes
the map writes and the response send), and the connection is left open;
but the failure is not logged by the handler and the exception does
escape. -/
theorem C5_malformed_payload_throws (wsId : Nat) (s : PubState) :
    _register none wsId s = Except.error () := rfl

/-- C6: a record with no registry entry whose resource matches and whose
sub-resources intersect is delivered to no connection, yet the mark-write
still occurs at the record's original key with `published` a timestamp
string, no longer `"no"` — the event is permanently lost. -/
theorem C6_unmatched_record_marked_and_lost (s : PubState) (r : RecordObj) (now : Nat)
    (hsel : r.value.published = "no")
    (hnone : ∀ p ∈ s.registrations,
      ¬(p.2.changeKind.resource = r.value.changeKind.resource ∧
        ∃ sr ∈ r.value.changeKind.subResources, sr ∈ p.2.changeKind.subResources)) :
    (_record now s r).toOption.map (fun eff => eff.sends) = some []
    ∧ (_record now s r).toOption.map (fun eff => eff.emitsItemPublished) = some 0
    ∧ (_record now s r).toOption.map (fun eff => eff.write)
      = some (r.key, markValue now r.value)
    ∧ (markValue now r.value).published ≠ "no" := by
  have hdelf : ∀ p ∈ s.registrations, deliverable p.2 r.value = false := by
    intro p hp
    cases hd : deliverable p.2 r.value
    · rfl
    · exact absurd ((deliverable_eq_true_iff p.2 r.value).mp hd) (hnone p hp)
  have hws : ∀ p ∈ s.registrations, deliverable p.2 r.value = true →
      (objGet s.websockets p.1).isSome = true := by
    intro p hp hd
    rw [hdelf p hp] at hd
    exact absurd hd (by simp)
  have hnil : s.registrations.filterMap
      (fun p => if deliverable p.2 r.value then
        some (p.1, stringifyValue (markValue now r.value)) else none) = [] :=
    List.filterMap_eq_nil_iff.mpr (fun p hp => by simp [hdelf p hp])
  rw [record_ok now s r hws]
  simp only [Except.toOption, Option.map_some', Option.some.injEq, hnil]
  refine ⟨?_, ?_, ?_, markValue_published_ne_no now r.value⟩ <;> simp

theorem C6_unmatched_record_marked_and_lost_witness :
    (_record 5 cS1 cRec6).toOption.map (fun eff => eff.sends) = some []
    ∧ (_record 5 cS1 cRec6).toOption.map (fun eff => eff.emitsItemPublished) = some 0
    ∧ (_record 5 cS1 cRec6).toOption.map (fun eff => eff.write)
      = some (cRec6.key, markValue 5 cRec6.value)
    ∧ ((markValue 5 cRec6.value).published == "no") = false := by
  have h := C6_unmatched_record_marked_and_lost cS1 cRec6 5 rfl (by decide)
  exact ⟨h.1, h.2.1, h.2.2.1, beq_eq_false_iff_ne.mpr h.2.2.2⟩

/-- C7: the code at the failing input — `stop()` clears the poll interval
and closes the moray client, but a `findObjects` record callback already
in flight when `stop()` ran is NOT a no-op: the handler consults no
stopped flag, so it still sends the serialized value to the matching
connection, emits `item-published` once, and issues the mark-write. -/
theorem C7_stop_leaves_inflight_callbacks_live :
    (stop cRun7).pollIntervalSet = false
    ∧ (stop cRun7).morayClientOpen = false
    ∧ (runInflightRecord 5 (stop cRun7) cRec1).toOption.map
        (fun eff => (eff.emitsItemPublished, eff.sends, eff.write))
      = some (1, [("i1", some (encodeValue (markValue 5 cVal1)))],
              ("k1", markValue 5 cVal1)) := by
  refine ⟨rfl, rfl, ?_⟩
  rfl

/-- C9: after each registry-mutating operation (`_register` on the first
handshake message, `_end` cleanup on graceful end, `_connectionReset`
cleanup on abrupt reset) that completes without throwing, the key set of
`self.registrations` equals the key set of `self.websockets`. -/
theorem C9_registry_key_sets_agree (s : PubState)
    (h : objKeys s.registrations = objKeys s.websockets) :
    (∀ decoded wsId s2 resp, _register decoded wsId s = Except.ok (s2, resp) →
        objKeys s2.registrations = objKeys s2.websockets)
    ∧ (∀ wsId s2, _end wsId s = Except.ok s2 →
        objKeys s2.registrations = objKeys s2.websockets)
    ∧ (∀ wsId s2, _connectionReset wsId s = Except.ok s2 →
        objKeys s2.registrations = objKeys s2.websockets) := by
  refine ⟨?_, ?_, ?_⟩
  · intro decoded wsId s2 resp hreg
    cases decoded with
    | none =>
      exact absurd (show (Except.error () : Except Unit (PubState × Option Resource))
        = Except.ok (s2, resp) from hreg) (by simp)
    | some reg =>
      have hs2 : s2 = { s with websockets := objSet s.websockets reg.instanceId wsId,
                               registrations := objSet s.registrations reg.instanceId reg } := by
        simp only [_register, Except.ok.injEq, Prod.mk.injEq] at hreg
        exact hreg.1.symm
      rw [hs2]
      exact objKeys_objSet_congr s.registrations s.websockets reg.instanceId reg wsId h
  · intro wsId s2 hend
    unfold _end at hend
    cases hcol : collectInstances wsId (objKeys s.registrations) s.registrations s.websockets with
    | error e =>
      rw [hcol] at hend
      exact absurd (show (Except.error e : Except Unit PubState) = Except.ok s2 from hend)
        (by simp)
    | ok out =>
      rw [hcol] at hend
      have he : (Except.ok { s with registrations := out.1, websockets := out.2 } :
          Except Unit PubState) = Except.ok s2 := hend
      injection he with he2
      rw [← he2]
      exact collectInstances_keys wsId (objKeys s.registrations) s.registrations
        s.websockets out h hcol
  · intro wsId s2 hend
    unfold _connectionReset at hend
    cases hcol : collectInstances wsId (objKeys s.registrations) s.registrations s.websockets with
    | error e =>
      rw [hcol] at hend
      exact absurd (show (Except.error e : Except Unit PubState) = Except.ok s2 from hend)
        (by simp)
    | ok out =>
      rw [hcol] at hend
      have he : (Except.ok { s with registrations := out.1, websockets := out.2 } :
          Except Unit PubState) = Except.ok s2 := hend
      injection he with he2
      rw [← he2]
      exact collectInstances_keys wsId (objKeys s.registrations) s.registrations
        s.websockets out h hcol

theorem C9_registry_key_sets_agree_witness :
    objKeys cPost9.registrations = objKeys cPost9.websockets :=
  (C9_registry_key_sets_agree cS2 rfl).1 (some cReg1) 3 cPost9 (some cRes) rfl

/-- C10: `published` is set to the timestamp string before serialization,
so every payload sent during the record's processing and the value
written back at the record's key are serializations of one and the same
marked value, whose `published` field is the timestamp string, not
`"no"`. -/
theorem C10_mark_precedes_serialization (s : PubState) (r : RecordObj) (now : Nat)
    (hser : r.value.serializable = true)
    (hkeys : objKeys s.registrations = objKeys s.websockets) :
    (_record now s r).toOption.map
        (fun eff => eff.sends.all
          (fun p => p.2 == some (encodeValue (markValue now r.value)))) = some true
    ∧ (_record now s r).toOption.map (fun eff => eff.write)
      = some (r.key, markValue now r.value)
    ∧ stringifyValue (markValue now r.value) = some (encodeValue (markValue now r.value))
    ∧ (markValue now r.value).published = Nat.repr now
    ∧ Nat.repr now ≠ "no" := by
  have hws : ∀ p ∈ s.registrations, deliverable p.2 r.value = true →
      (objGet s.websockets p.1).isSome = true := by
    intro p hp _
    apply objGet_isSome_of_mem_keys
    rw [← hkeys]
    exact List.mem_map.mpr ⟨p, hp, rfl⟩
  rw [record_ok now s r hws]
  refine ⟨?_, rfl, stringify_markValue_pos now r.value hser, rfl, repr_ne_no now⟩
  simp only [Except.toOption, Option.map_some', Option.some.injEq]
  rw [List.all_eq_true]
  intro p hp
  have := sends_payload (stringifyValue (markValue now r.value)) r.value s.registrations p hp
  rw [this, stringify_markValue_pos now r.value hser]
  simp

theorem C10_mark_precedes_serialization_witness :
    (_record 5 cS1 cRec1).toOption.map
        (fun eff => eff.sends.all
          (fun p => p.2 == some (encodeValue (markValue 5 cRec1.value)))) = some true
    ∧ (_record 5 cS1 cRec1).toOption.map (fun eff => eff.write)
      = some (cRec1.key, markValue 5 cRec1.value)
    ∧ stringifyValue (markValue 5 cRec1.value)
      = some (encodeValue (markValue 5 cRec1.value))
    ∧ (markValue 5 cRec1.value).published = Nat.repr 5
    ∧ (Nat.repr 5 == "no") = false := by
  have h := C10_mark_precedes_serialization cS1 cRec1 5 rfl rfl
  exact ⟨h.1, h.2.1, h.2.2.1, h.2.2.2.1, beq_eq_false_iff_ne.mpr h.2.2.2.2⟩

end Changefeed
